import Mathlib

/-!
Verification of the CLI_agent orchestration core (shallow embedding).

Python strings are modelled as `List Char`; Python sets of label strings as
`Finset (List Char)`; fallible code as `Option`.  Every definition is
translated
from the repository source (file and function named in its doc comment);
definitions written from the spec's wording instead are explicitly marked.
-/

namespace CLIAgent

/-- Character list of a string literal (Python `str` values are embedded as
`List Char`). -/
def toL (s : String) : List Char := s.data

/-- Python `str.lower()` restricted to the ASCII range, applied char-wise. -/
def pyLower (l : List Char) : List Char := l.map Char.toLower

/- ---------------------------------------------------------------------
Review State Machine: next-action decision.
Source: src/src/agents/reviewer_agent.py, `_determine_next_action`
(lines 241-255).  The Python reads the three inputs out of the review
dict / CI dict with defaults and then runs an if/elif/elif/else chain.
--------------------------------------------------------------------- -/

/-- `_determine_next_action(review_results, ci_status)` after the three
`.get` extractions: inputs are the `meets_requirements` boolean, the review
`status` string, and the CI `success` boolean. -/
def determineNextAction (meetsRequirements : Bool) (reviewStatus : String)
    (ciSuccess : Bool) : String :=
  if meetsRequirements = true ∧ reviewStatus = "approved" ∧ ciSuccess = true then
    "merge"
  else if ¬ (ciSuccess = true) then
    "fix_ci"
  else if ¬ (meetsRequirements = true) ∨ reviewStatus ≠ "approved" then
    "request_changes"
  else
    "wait"

/- ---------------------------------------------------------------------
Label-group mutations.
Sources: src/src/github/client.py `update_issue_status` (lines 35-47) and
src/src/agents/reviewer_agent.py `_post_review_feedback` (lines 153-174).
--------------------------------------------------------------------- -/

/-- The WorkItem lifecycle status-label group (`status_labels` in
`update_issue_status`). -/
def issueStatusLabels : Finset (List Char) :=
  {toL "in-progress", toL "needs-review", toL "ready", toL "blocked"}

/-- `status.lower().replace(" ", "-")` from `update_issue_status`. -/
def normalizeStatus (s : List Char) : List Char :=
  (pyLower s).map (fun c => if c = ' ' then '-' else c)

/-- Label set after `update_issue_status`: the status-label group is removed
from the current labels and the normalized new status is added, and the
result is written back with `set_labels`. -/
def updateIssueLabels (current : Finset (List Char)) (status : List Char) :
    Finset (List Char) :=
  (current \ issueStatusLabels) ∪ {normalizeStatus status}

/-- The ChangeRequest review-outcome label group (`review_labels` in
`_post_review_feedback`). -/
def reviewOutcomeLabels : Finset (List Char) :=
  {toL "approved", toL "changes-requested", toL "needs-work"}

/-- The single review-outcome label `_post_review_feedback` adds, chosen from
the verdict's `status` string and `meets_requirements` flag. -/
def postReviewLabel (status : List Char) (meets : Bool) : List Char :=
  if status = toL "approved" ∧ meets = true then toL "approved"
  else if status = toL "changes_requested" then toL "changes-requested"
  else toL "needs-work"

/-- Label set after `_post_review_feedback`'s `pr.set_labels` call. -/
def postReviewLabels (current : Finset (List Char)) (status : List Char)
    (meets : Bool) : Finset (List Char) :=
  (current \ reviewOutcomeLabels) ∪ {postReviewLabel status meets}

/- ---------------------------------------------------------------------
Revision-feedback iteration cap.
Source: src/src/agents/code_agent.py `handle_review_feedback`
(lines 557-599).  The per-agent-instance counter `self.iteration_count`
starts at 0 (constructor, line 31) and is incremented at the top of every
call; the call is refused when the incremented value exceeds
`settings.max_iterations`.
--------------------------------------------------------------------- -/

/-- Observable outcome of one `handle_review_feedback` call: its boolean
return value, whether the escalation comment was posted, whether the
progress comment was posted, and whether the per-file revision loop was
reached. -/
structure FeedbackResult where
  success : Bool
  postedEscalation : Bool
  postedProgress : Bool
  attemptedRevision : Bool
deriving DecidableEq, Repr

/-- One `handle_review_feedback` call: given the configured maximum and the
current `iteration_count`, returns the new counter value and the call's
observable outcome.  The refused branch posts the escalation comment and
returns `False` before any file work; the accepted branch posts the progress
comment, runs the per-file revision loop, and returns `True`. -/
def handleReviewFeedback (maxIterations iterationCount : Nat) :
    Nat × FeedbackResult :=
  if iterationCount + 1 > maxIterations then
    (iterationCount + 1, ⟨false, true, false, false⟩)
  else
    (iterationCount + 1, ⟨true, false, true, true⟩)

/-- Counter value after `k` successive `handle_review_feedback` calls on a
fresh agent instance (`iteration_count = 0` at construction). -/
def iterAfter (maxIterations : Nat) : Nat → Nat
  | 0 => 0
  | k + 1 => (handleReviewFeedback maxIterations (iterAfter maxIterations k)).1

/- ---------------------------------------------------------------------
CI-status aggregation.
Source: src/src/github/client.py `get_ci_status` (lines 111-140).
--------------------------------------------------------------------- -/

/-- One commit check-status entry as read from the platform. -/
structure StatusEntry where
  context : List Char
  state : List Char
  description : List Char
  targetUrl : List Char
deriving DecidableEq, Repr

/-- The aggregated CI result dict built by `get_ci_status`. -/
structure CiStatus where
  success : Bool
  jobs : List StatusEntry
  details : List Char
deriving DecidableEq, Repr

/-- Body of the `for status in statuses` loop in `get_ci_status`: every
entry is appended to `jobs`; an entry whose state is not `"success"` clears
the `success` flag and appends a line to `details`. -/
def ciStep (acc : CiStatus) (st : StatusEntry) : CiStatus :=
  { success := acc.success && (st.state == toL "success")
    jobs := acc.jobs ++ [st]
    details :=
      if st.state == toL "success" then acc.details
      else acc.details ++ st.context ++ toL ": " ++ st.state ++ ['\n'] }

/-- `get_ci_status`, with the PR's commit list abstracted to the per-commit
status-entry lists (only the latest commit's entries are read). -/
def getCiStatus (commits : List (List StatusEntry)) : CiStatus :=
  match commits.getLast? with
  | none => ⟨false, [], toL "No commits found"⟩
  | some statuses => statuses.foldl ciStep ⟨true, [], []⟩

/- ---------------------------------------------------------------------
Branch-name derivation.
Source: src/src/agents/code_agent.py `_create_implementation_plan`
(lines 210-223):
  clean_title = re.sub(r'[^a-zA-Z0-9-]', '-', issue_title.lower())
  clean_title = re.sub(r'-+', '-', clean_title).strip('-')[:50]
  branch_name = f"(branch_prefix)issue-(number)-(clean_title)"[:100]
--------------------------------------------------------------------- -/

/-- `[a-zA-Z0-9]` (the regex character classes are ASCII-only). -/
def isAlnumAscii (c : Char) : Bool := c.isAlpha || c.isDigit

/-- Character-level action of the first `re.sub`: a character outside
`[a-zA-Z0-9-]` is replaced by a hyphen. -/
def sub1 (c : Char) : Char :=
  if isAlnumAscii c || c = '-' then c else '-'

/-- The first `re.sub`: every character outside `[a-zA-Z0-9-]` is replaced
by a hyphen. -/
def subBadChars (l : List Char) : List Char := l.map sub1

/-- The second `re.sub(r'-+', '-', ...)`: each maximal run of hyphens is
collapsed to a single hyphen. -/
def collapseHyphenRuns : List Char → List Char
  | [] => []
  | [c] => [c]
  | a :: b :: rest =>
    if a = '-' ∧ b = '-' then collapseHyphenRuns (b :: rest)
    else a :: collapseHyphenRuns (b :: rest)

/-- Python `.strip('-')`: drop leading and trailing hyphens. -/
def stripEdgeHyphens (l : List Char) : List Char :=
  ((l.dropWhile (fun c => c = '-')).reverse.dropWhile (fun c => c = '-')).reverse

/-- The `clean_title` slug computed by `_create_implementation_plan`. -/
def cleanTitle (title : List Char) : List Char :=
  (stripEdgeHyphens (collapseHyphenRuns (subBadChars (pyLower title)))).take 50

/-- The full branch name: configured namespace `ns`
(`settings.branch_prefix`, default `"agent/"`), the `issue-<id>-` segment
and the slug, truncated to 100 characters. -/
def branchName (ns : List Char) (issueNumber : Nat) (title : List Char) :
    List Char :=
  (ns ++ toL "issue-" ++ (Nat.repr issueNumber).data ++ ['-'] ++ cleanTitle title).take 100

/-- Modelled from the spec: `[a-zA-Z0-9-]`, the characters the spec's
"collapse non-alphanumeric/non-hyphen runs" step leaves untouched. -/
def isAllowedChar (c : Char) : Bool := isAlnumAscii c || c = '-'

/-- Modelled from the spec: "collapsing all non-alphanumeric/non-hyphen runs
to single hyphens" read literally — each maximal run of characters that are
neither alphanumeric nor a hyphen becomes one hyphen, and hyphens already
present are left alone. -/
def collapseNonAlnumNonHyphenRuns : List Char → List Char
  | [] => []
  | [c] => [if isAllowedChar c then c else '-']
  | a :: b :: rest =>
    if ¬ isAllowedChar a ∧ ¬ isAllowedChar b then
      collapseNonAlnumNonHyphenRuns (b :: rest)
    else
      (if isAllowedChar a then a else '-') :: collapseNonAlnumNonHyphenRuns (b :: rest)

/-- Modelled from the spec: the slug pipeline as the spec words it, for
comparison with `cleanTitle`. -/
def cleanTitleSpecSteps (title : List Char) : List Char :=
  (stripEdgeHyphens (collapseNonAlnumNonHyphenRuns (pyLower title))).take 50

/-- Modelled from the spec: the whole derivation as the spec words it. -/
def branchNameSpecSteps (ns : List Char) (issueNumber : Nat)
    (title : List Char) : List Char :=
  (ns ++ toL "issue-" ++ (Nat.repr issueNumber).data ++ ['-'] ++ cleanTitleSpecSteps title).take 100

/-- Amended collapse step: each maximal run of non-alphanumeric characters
(hyphens included in the runs) becomes a single hyphen. -/
def collapseNonAlnumRuns : List Char → List Char
  | [] => []
  | [c] => [if isAlnumAscii c then c else '-']
  | a :: b :: rest =>
    if ¬ isAlnumAscii a ∧ ¬ isAlnumAscii b then
      collapseNonAlnumRuns (b :: rest)
    else
      (if isAlnumAscii a then a else '-') :: collapseNonAlnumRuns (b :: rest)

/-- Amended slug pipeline. -/
def cleanTitleAmended (title : List Char) : List Char :=
  (stripEdgeHyphens (collapseNonAlnumRuns (pyLower title))).take 50

/-- Amended derivation. -/
def branchNameAmended (ns : List Char) (issueNumber : Nat)
    (title : List Char) : List Char :=
  (ns ++ toL "issue-" ++ (Nat.repr issueNumber).data ++ ['-'] ++ cleanTitleAmended title).take 100

/-- A hyphen is not alphanumeric, so an alphanumeric character is not a
hyphen. -/
theorem alnum_ne_dash {c : Char} (h : isAlnumAscii c = true) : c ≠ '-' := by
  intro he
  rw [he] at h
  exact absurd h (by decide)

/-- On alphanumeric input the substitution is the identity. -/
theorem sub1_of_alnum {c : Char} (h : isAlnumAscii c = true) : sub1 c = c := by
  simp [sub1, h]

/-- On non-alphanumeric input the substitution yields a hyphen. -/
theorem sub1_of_not_alnum {c : Char} (h : ¬ isAlnumAscii c = true) :
    sub1 c = '-' := by
  by_cases hc : c = '-' <;> simp [sub1, h, hc]

/-- Replacing every bad character by a hyphen and then collapsing hyphen
runs is the same as collapsing maximal non-alphanumeric runs directly. -/
theorem collapseHyphenRuns_subBadChars (l : List Char) :
    collapseHyphenRuns (subBadChars l) = collapseNonAlnumRuns l := by
  induction l with
  | nil => rfl
  | cons a tail ih =>
    cases tail with
    | nil =>
      show collapseHyphenRuns [sub1 a] = [if isAlnumAscii a then a else '-']
      by_cases ha : isAlnumAscii a = true
      · simp [collapseHyphenRuns, sub1_of_alnum ha, ha]
      · simp [collapseHyphenRuns, sub1_of_not_alnum ha, ha]
    | cons b rest =>
      have step : collapseHyphenRuns (subBadChars (a :: b :: rest)) =
          if sub1 a = '-' ∧ sub1 b = '-' then
            collapseHyphenRuns (subBadChars (b :: rest))
          else sub1 a :: collapseHyphenRuns (subBadChars (b :: rest)) := rfl
      rw [step, ih]
      by_cases ha : isAlnumAscii a = true <;> by_cases hb : isAlnumAscii b = true
      · rw [sub1_of_alnum ha, sub1_of_alnum hb]
        simp [collapseNonAlnumRuns, ha, hb, alnum_ne_dash ha]
      · rw [sub1_of_alnum ha, sub1_of_not_alnum hb]
        simp [collapseNonAlnumRuns, ha, hb, alnum_ne_dash ha]
      · rw [sub1_of_not_alnum ha, sub1_of_alnum hb]
        simp [collapseNonAlnumRuns, ha, hb, alnum_ne_dash hb]
      · rw [sub1_of_not_alnum ha, sub1_of_not_alnum hb]
        simp [collapseNonAlnumRuns, ha, hb]

/- ---------------------------------------------------------------------
File Relevance Resolver.
Source: src/src/agents/code_agent.py `_determine_file_patterns`
(lines 181-202), `_pattern_matches` (lines 204-208) and
`_discover_relevant_files` (lines 156-179).
--------------------------------------------------------------------- -/

/-- Python `needle in hay` substring containment on character lists: the
needle is a prefix of some suffix of the haystack. -/
def isInfixL (needle : List Char) : List Char → Bool
  | [] => needle.isEmpty
  | c :: rest => needle.isPrefixOf (c :: rest) || isInfixL needle rest

/-- Python `keyword in requirement` (substring containment). -/
def kwIn (kw : String) (req : List Char) : Bool := isInfixL (toL kw) req

/-- `_determine_file_patterns`: derive glob-like patterns from keyword
presence in the (lower-cased) requirement text, defaulting to `*.py`. -/
def determineFilePatterns (req : List Char) : List (List Char) :=
  let patterns :=
    (if kwIn "python" req || kwIn ".py" req || kwIn "py file" req then
      [toL "*.py"] else []) ++
    (if kwIn "documentation" req || kwIn "readme" req || kwIn ".md" req
        || kwIn "markdown" req then
      [toL "*.md"] else []) ++
    (if kwIn "test" req || kwIn "tests" req || kwIn "testing" req then
      [toL "*test*.py"] else []) ++
    (if kwIn "config" req || kwIn "configuration" req || kwIn ".json" req
        || kwIn ".yaml" req || kwIn ".yml" req then
      [toL "*.json", toL "*.yaml", toL "*.yml"] else [])
  if patterns.isEmpty then [toL "*.py"] else patterns

/-- `_pattern_matches`: a pattern starting with `*` matches by suffix, or —
when the pattern minus its first and last characters still contains a `*` —
by literal substring containment of that middle slice; any other pattern
must equal the path. -/
def patternMatches (pat path : List Char) : Bool :=
  match pat with
  | [] => path == ([] : List Char)
  | c :: rest =>
    if c = '*' then
      rest.isSuffixOf path
        || (if rest.dropLast.contains '*' then isInfixL rest.dropLast path
            else false)
    else path == (c :: rest)

/-- The directory-exclusion substrings of `_discover_relevant_files`. -/
def excludeDirs : List (List Char) :=
  [toL "__pycache__", toL "node_modules/", toL "venv/", toL ".venv/",
   toL "env/", toL "dist/", toL "build/", toL ".git"]

/-- A path is excluded when any exclusion string occurs in it. -/
def isExcluded (path : List Char) : Bool :=
  excludeDirs.any (fun e => isInfixL e path)

/-- `_discover_relevant_files`: walk the recursive tree listing in order,
keep entries matching some derived pattern and not excluded, and return at
most the first 50. -/
def discoverRelevantFiles (req : List Char) (tree : List (List Char)) :
    List (List Char) :=
  (tree.filter (fun p =>
    (determineFilePatterns req).any (fun pat => patternMatches pat p)
      && ! isExcluded p)).take 50

/-- The requirement text of claim C6. -/
def reqC6 : List Char := toL "add a configuration loader in yaml"

/-- A star pattern with no `*` in its middle slice matches exactly by
suffix. -/
theorem patternMatches_star_noMid (rest p : List Char)
    (h : rest.dropLast.contains '*' = false) :
    patternMatches ('*' :: rest) p = rest.isSuffixOf p := by
  have e : patternMatches ('*' :: rest) p
      = (rest.isSuffixOf p
          || (if rest.dropLast.contains '*' then isInfixL rest.dropLast p
              else false)) := rfl
  rw [e, h]
  simp

/- ---------------------------------------------------------------------
Response Interpreter.
Sources: src/src/agents/reviewer_agent.py `_perform_llm_review`
(lines 96-151) with `_create_fallback_review` (lines 135-151), and
src/src/agents/code_agent.py `_analyze_issue` (lines 84-124).
Both components run
  json_match = re.search(r'BRACE.*BRACE', response, re.DOTALL)
(span from the first opening brace to the last closing brace, dot matching
newlines) and, when a span exists, `json.loads` on it; a missing span or a
decode error falls through to the component's fallback record.  JSON values
are embedded as the inductive `Json`; `json.loads` is embedded as a
fuel-indexed recursive-descent parser over the JSON grammar (numbers are
kept as their raw character runs; Python's non-standard `NaN`/`Infinity`
constants and its last-wins treatment of duplicate object keys are not
modelled — duplicates are kept in order).
--------------------------------------------------------------------- -/

/-- A decoded JSON value. -/
inductive Json where
  | null
  | bool (b : Bool)
  | num (raw : List Char)
  | str (s : List Char)
  | arr (items : List Json)
  | obj (members : List (List Char × Json))

/-- The JSON whitespace characters accepted between tokens. -/
def isJsonWs (c : Char) : Bool :=
  c = ' ' || c = '\t' || c = '\n' || c = '\x0d'

/-- Skip inter-token whitespace. -/
def skipWs (l : List Char) : List Char := l.dropWhile isJsonWs

/-- The single-character string escapes of JSON. -/
def escChar (e : Char) : Option Char :=
  if e = '"' then some '"'
  else if e = '\\' then some '\\'
  else if e = '/' then some '/'
  else if e = 'b' then some (Char.ofNat 8)
  else if e = 'f' then some (Char.ofNat 12)
  else if e = 'n' then some '\n'
  else if e = 'r' then some (Char.ofNat 13)
  else if e = 't' then some '\t'
  else none

/-- Hexadecimal digit test for `\uXXXX` escapes. -/
def isHexDigitL (c : Char) : Bool :=
  c.isDigit || ('a' ≤ c && c ≤ 'f') || ('A' ≤ c && c ≤ 'F')

/-- Value of a hexadecimal digit. -/
def hexVal (c : Char) : Nat :=
  if c.isDigit then c.toNat - '0'.toNat
  else if 'a' ≤ c && c ≤ 'f' then c.toNat - 'a'.toNat + 10
  else c.toNat - 'A'.toNat + 10

/-- Parse the body of a JSON string (the opening quote already consumed):
returns the decoded characters and the remaining input.  Control characters
are rejected, escapes are decoded, and a `\uXXXX` escape must denote a
Unicode scalar value. -/
def parseStringBody : List Char → Option (List Char × List Char)
  | [] => none
  | c :: rest =>
    if c = '"' then some ([], rest)
    else if c = '\\' then
      match rest with
      | [] => none
      | e :: rest2 =>
        if e = 'u' then
          match rest2 with
          | h1 :: h2 :: h3 :: h4 :: rest3 =>
            if isHexDigitL h1 && isHexDigitL h2 && isHexDigitL h3
                && isHexDigitL h4 then
              if ((hexVal h1 * 16 + hexVal h2) * 16 + hexVal h3) * 16 + hexVal h4
                    < 55296
                  ∨ (57344 ≤ ((hexVal h1 * 16 + hexVal h2) * 16 + hexVal h3) * 16
                        + hexVal h4
                     ∧ ((hexVal h1 * 16 + hexVal h2) * 16 + hexVal h3) * 16
                        + hexVal h4 ≤ 1114111) then
                match parseStringBody rest3 with
                | some (s, r) =>
                  some (Char.ofNat (((hexVal h1 * 16 + hexVal h2) * 16
                    + hexVal h3) * 16 + hexVal h4) :: s, r)
                | none => none
              else none
            else none
          | _ => none
        else
          match escChar e with
          | some c2 =>
            match parseStringBody rest2 with
            | some (s, r) => some (c2 :: s, r)
            | none => none
          | none => none
    else if c.toNat < 32 then none
    else
      match parseStringBody rest with
      | some (s, r) => some (c :: s, r)
      | none => none

/-- Parse a JSON number following the JSON grammar
`-?(0|[1-9][0-9]*)(.[0-9]+)?([eE][+-]?[0-9]+)?`, keeping the raw
characters. -/
def parseNumber (input : List Char) : Option (Json × List Char) :=
  let signAndRest : List Char × List Char :=
    match input with
    | '-' :: t => (['-'], t)
    | _ => ([], input)
  match signAndRest.2 with
  | [] => none
  | c :: t =>
    if ¬ c.isDigit = true then none
    else
      let intAndRest : List Char × List Char :=
        if c = '0' then (['0'], t)
        else (c :: t.takeWhile Char.isDigit, t.dropWhile Char.isDigit)
      let fracAndRest : List Char × List Char :=
        match intAndRest.2 with
        | '.' :: u =>
          if (u.takeWhile Char.isDigit).isEmpty then ([], intAndRest.2)
          else ('.' :: u.takeWhile Char.isDigit, u.dropWhile Char.isDigit)
        | _ => ([], intAndRest.2)
      let expAndRest : List Char × List Char :=
        match fracAndRest.2 with
        | e :: u =>
          if e = 'e' ∨ e = 'E' then
            let esAndRest : List Char × List Char :=
              match u with
              | s2 :: u3 => if s2 = '+' ∨ s2 = '-' then ([s2], u3) else ([], u)
              | [] => ([], u)
            if (esAndRest.2.takeWhile Char.isDigit).isEmpty then ([], fracAndRest.2)
            else (e :: esAndRest.1 ++ esAndRest.2.takeWhile Char.isDigit,
                  esAndRest.2.dropWhile Char.isDigit)
          else ([], fracAndRest.2)
        | [] => ([], fracAndRest.2)
      some (Json.num (signAndRest.1 ++ intAndRest.1 ++ fracAndRest.1
              ++ expAndRest.1), expAndRest.2)

/-- Match a literal keyword tail (`rue`, `alse`, `ull`). -/
def parseLit (lit : List Char) (j : Json) (input : List Char) :
    Option (Json × List Char) :=
  if lit.isPrefixOf input then some (j, input.drop lit.length) else none

/-- Parse the members of an object after its opening brace (first member
not yet consumed), given a parser `pv` for values; `f` is iteration fuel
bounded by the input length. -/
def parseMembersAux (pv : List Char → Option (Json × List Char)) :
    Nat → List Char → List (List Char × Json) → Option (Json × List Char)
  | 0, _, _ => none
  | f + 1, input, acc =>
    match skipWs input with
    | '"' :: r1 =>
      match parseStringBody r1 with
      | some (key, r2) =>
        match skipWs r2 with
        | ':' :: r3 =>
          match pv r3 with
          | some (v, r4) =>
            match skipWs r4 with
            | ',' :: r5 => parseMembersAux pv f r5 (acc ++ [(key, v)])
            | '\x7d' :: r5 => some (Json.obj (acc ++ [(key, v)]), r5)
            | _ => none
          | none => none
        | _ => none
      | none => none
    | _ => none

/-- Parse the items of an array after its opening bracket (first item not
yet consumed), given a parser `pv` for values. -/
def parseItemsAux (pv : List Char → Option (Json × List Char)) :
    Nat → List Char → List Json → Option (Json × List Char)
  | 0, _, _ => none
  | f + 1, input, acc =>
    match pv input with
    | some (v, r1) =>
      match skipWs r1 with
      | ',' :: r2 => parseItemsAux pv f r2 (acc ++ [v])
      | ']' :: r2 => some (Json.arr (acc ++ [v]), r2)
      | _ => none
    | none => none

/-- Parse one JSON value (fuel-indexed on nesting depth): returns the value
and the remaining input. -/
def parseValueF : Nat → List Char → Option (Json × List Char)
  | 0, _ => none
  | fuel + 1, input =>
    match skipWs input with
    | [] => none
    | c :: rest =>
      if c = '\x7b' then
        match skipWs rest with
        | '\x7d' :: r2 => some (Json.obj [], r2)
        | _ => parseMembersAux (fun s => parseValueF fuel s)
            (rest.length + 1) rest []
      else if c = '[' then
        match skipWs rest with
        | ']' :: r2 => some (Json.arr [], r2)
        | _ => parseItemsAux (fun s => parseValueF fuel s)
            (rest.length + 1) rest []
      else if c = '"' then
        match parseStringBody rest with
        | some (s, r) => some (Json.str s, r)
        | none => none
      else if c = 't' then parseLit (toL "rue") (Json.bool true) rest
      else if c = 'f' then parseLit (toL "alse") (Json.bool false) rest
      else if c = 'n' then parseLit (toL "ull") Json.null rest
      else if c = '-' ∨ c.isDigit = true then parseNumber (c :: rest)
      else none

/-- `json.loads`: parse one value and require only whitespace to remain. -/
def parseJson (s : List Char) : Option Json :=
  match parseValueF (2 * s.length + 2) s with
  | some (v, rest) => if (skipWs rest).isEmpty then some v else none
  | none => none

/-- The greedy first-brace-to-last-brace span extraction performed by
`re.search` with `re.DOTALL`: the match — when one exists — starts at the
first opening brace and ends at the last closing brace of the text (a match
exists exactly when some closing brace follows the first opening brace). -/
def extractJsonSpan (text : List Char) : Option (List Char) :=
  let t2 := ((text.dropWhile (fun c => c != '\x7b')).reverse).dropWhile
    (fun c => c != '\x7d')
  if t2.isEmpty then none else some t2.reverse

/-- The shared interpretation core: extract the brace span and decode it;
`none` signals "no span" or "decode failed", i.e. the fallback path. -/
def interpretModelResponse (text : List Char) : Option Json :=
  match extractJsonSpan text with
  | some span => parseJson span
  | none => none

/-- `_create_fallback_review`: the reviewer's explicitly-shaped fallback
record built from the raw response text. -/
def createFallbackReview (response : List Char) : Json :=
  Json.obj
    [(toL "summary",
      Json.str (if response.length > 500 then response.take 500 ++ toL "..."
                else response)),
     (toL "status",
      Json.str (if isInfixL (toL "approved") (pyLower response) then
          toL "approved"
        else if isInfixL (toL "changes") (pyLower response) then
          toL "changes_requested"
        else toL "needs_work")),
     (toL "issues_found", Json.arr []),
     (toL "positive_feedback", Json.arr []),
     (toL "suggestions",
      Json.arr [Json.str
        (toL "Could not parse detailed review. Please review manually.")]),
     (toL "overall_score", Json.num (toL "50")),
     (toL "meets_requirements", Json.bool false)]

/-- `_perform_llm_review`'s interpretation of the model text: the decoded
span when extraction and decoding succeed, otherwise the fallback review.
(The outer try/except for a failed model call, which returns a distinct
technical-error record, concerns a collaborator failure and is outside the
interpreter.) -/
def performLLMReview (response : List Char) : Json :=
  match interpretModelResponse response with
  | some v => v
  | none => createFallbackReview response

/-- `_analyze_issue`'s fallback record, built from the issue title and
body (the body truncated to 200 characters; an absent body and an empty
body both yield the empty string). -/
def analyzeIssueFallback (title body : List Char) : Json :=
  Json.obj
    [(toL "analysis", Json.obj
      [(toL "requirement_summary", Json.str title),
       (toL "files_to_modify", Json.arr []),
       (toL "expected_behavior", Json.str (body.take 200)),
       (toL "edge_cases", Json.arr []),
       (toL "complexity", Json.str (toL "medium"))])]

/-- `_analyze_issue`'s interpretation stage: the decoded span on success,
its fallback record otherwise.  (On success the function afterwards
substitutes discovered files into an empty `files_to_modify` field; that
post-processing is downstream of the Response Interpreter modelled here.) -/
def analyzeIssueInterpret (title body response : List Char) : Json :=
  match interpretModelResponse response with
  | some v => v
  | none => analyzeIssueFallback title body

/-- Dropping while a predicate holds skips a whole prefix on which it
holds everywhere. -/
theorem dropWhile_append_all (P : Char → Bool) (xs ys : List Char)
    (h : ∀ c ∈ xs, P c = true) :
    (xs ++ ys).dropWhile P = ys.dropWhile P := by
  induction xs with
  | nil => rfl
  | cons a t ih =>
    have ha := h a (List.mem_cons_self a t)
    simp only [List.cons_append, List.dropWhile_cons, ha, if_pos]
    exact ih (fun c hc => h c (List.mem_cons_of_mem _ hc))

/-- When the text is a prefix without opening braces, then a brace-delimited
object, then a suffix without closing braces, the extracted span is exactly
the object. -/
theorem extractJsonSpan_concat (p o s o' : List Char)
    (ho : o = '\x7b' :: o') (hlast : o.getLast? = some '\x7d')
    (hp : ∀ c ∈ p, c ≠ '\x7b') (hs : ∀ c ∈ s, c ≠ '\x7d') :
    extractJsonSpan (p ++ o ++ s) = some o := by
  have h1 : (p ++ o ++ s).dropWhile (fun c => c != '\x7b') = o ++ s := by
    rw [List.append_assoc,
      dropWhile_append_all _ p _ (fun c hc => by simp [hp c hc]), ho]
    simp [List.dropWhile_cons]
  obtain ⟨t, ht⟩ : ∃ t, o.reverse = '\x7d' :: t := by
    have hh : o.reverse.head? = some '\x7d' := by
      rw [List.head?_reverse, hlast]
    cases hrev : o.reverse with
    | nil => rw [hrev] at hh; cases hh
    | cons b t =>
      rw [hrev] at hh
      exact ⟨t, by rw [(Option.some.injEq _ _).mp hh.symm]⟩
  have h2 : (o ++ s).reverse.dropWhile (fun c => c != '\x7d') = o.reverse := by
    rw [List.reverse_append,
      dropWhile_append_all _ s.reverse _
        (fun c hc => by simp [hs c (List.mem_reverse.mp hc)]), ht]
    simp [List.dropWhile_cons]
  show (if (((p ++ o ++ s).dropWhile (fun c => c != '\x7b')).reverse.dropWhile
      (fun c => c != '\x7d')).isEmpty then none
    else some ((((p ++ o ++ s).dropWhile (fun c => c != '\x7b')).reverse.dropWhile
      (fun c => c != '\x7d')).reverse)) = some o
  rw [h1, h2, ht]
  simp [← ht, ho]

/- ---------------------------------------------------------------------
Daemon Scheduler poll cycle.
Source: src/src/agents/issue_processor.py `process_pending_issues`
(lines 28-61).  Each new issue is handed to `code_agent.process_issue`
inside a per-item try/except that records the exception text in
`results["errors"]`; each pending PR is handed to
`reviewer_agent.review_pull_request` under the same discipline.  We embed
one item's processing as data: either it raises (with a message) or it
returns normally.
--------------------------------------------------------------------- -/

/-- Outcome of `code_agent.process_issue` for one issue: an escaping
exception, or a normal return of `Optional[int]` (the created PR number or
`None`). -/
inductive IssueOutcome where
  | raises (msg : List Char)
  | returns (pr : Option Nat)
deriving DecidableEq, Repr

/-- Outcome of `reviewer_agent.review_pull_request` for one PR: an escaping
exception or a normal return. -/
inductive ReviewOutcome where
  | raises (msg : List Char)
  | ok
deriving DecidableEq, Repr

/-- The error entry `f"Issue #(issue.number): (e)"` appended on a caught
per-issue exception. -/
def issueErrorEntry (n : Nat) (msg : List Char) : List Char :=
  toL "Issue #" ++ (Nat.repr n).data ++ toL ": " ++ msg

/-- The error entry `f"PR #(pr.number): (e)"` appended on a caught per-PR
exception. -/
def prErrorEntry (n : Nat) (msg : List Char) : List Char :=
  toL "PR #" ++ (Nat.repr n).data ++ toL ": " ++ msg

/-- Python truthiness of the returned `Optional[int]` (`if pr_number:`). -/
def truthyOptNat : Option Nat → Bool
  | none => false
  | some k => k != 0

/-- The `results` dict built by one poll cycle, plus the list of items each
loop actually reached (to state that no item is skipped). -/
structure CycleResult where
  issuesProcessed : Nat
  prsReviewed : Nat
  errors : List (List Char)
  attemptedIssues : List Nat
  attemptedPrs : List Nat
deriving DecidableEq, Repr

/-- The `for issue in new_issues` loop: returns the `issues_processed`
count, the error entries (in order), and the issue numbers reached. -/
def runIssueLoop : List (Nat × IssueOutcome) → Nat × List (List Char) × List Nat
  | [] => (0, [], [])
  | (n, IssueOutcome.raises msg) :: rest =>
    ((runIssueLoop rest).1,
     issueErrorEntry n msg :: (runIssueLoop rest).2.1,
     n :: (runIssueLoop rest).2.2)
  | (n, IssueOutcome.returns p) :: rest =>
    (if truthyOptNat p then (runIssueLoop rest).1 + 1 else (runIssueLoop rest).1,
     (runIssueLoop rest).2.1,
     n :: (runIssueLoop rest).2.2)

/-- The `for pr in pending_prs` loop: `prs_reviewed` count, error entries,
and the PR numbers reached. -/
def runPrLoop : List (Nat × ReviewOutcome) → Nat × List (List Char) × List Nat
  | [] => (0, [], [])
  | (n, ReviewOutcome.raises msg) :: rest =>
    ((runPrLoop rest).1,
     prErrorEntry n msg :: (runPrLoop rest).2.1,
     n :: (runPrLoop rest).2.2)
  | (n, ReviewOutcome.ok) :: rest =>
    ((runPrLoop rest).1 + 1,
     (runPrLoop rest).2.1,
     n :: (runPrLoop rest).2.2)

/-- `process_pending_issues`: both loops run to completion (the embedding
is total — the per-item try/except keeps exceptions inside the loop body)
and issue errors precede PR errors in `results["errors"]`. -/
def processPendingIssues (issues : List (Nat × IssueOutcome))
    (prs : List (Nat × ReviewOutcome)) : CycleResult :=
  ⟨(runIssueLoop issues).1, (runPrLoop prs).1,
   (runIssueLoop issues).2.1 ++ (runPrLoop prs).2.1,
   (runIssueLoop issues).2.2, (runPrLoop prs).2.2⟩

/-- The issue loop reaches every listed issue, in order. -/
theorem runIssueLoop_attempted (items : List (Nat × IssueOutcome)) :
    (runIssueLoop items).2.2 = items.map Prod.fst := by
  induction items with
  | nil => rfl
  | cons x rest ih =>
    obtain ⟨n, o⟩ := x
    cases o <;> simp [runIssueLoop, ih]

/-- The PR loop reaches every listed PR, in order. -/
theorem runPrLoop_attempted (items : List (Nat × ReviewOutcome)) :
    (runPrLoop items).2.2 = items.map Prod.fst := by
  induction items with
  | nil => rfl
  | cons x rest ih =>
    obtain ⟨n, o⟩ := x
    cases o <;> simp [runPrLoop, ih]

/-- A raising issue contributes its error entry to the issue loop's error
list. -/
theorem runIssueLoop_err (items : List (Nat × IssueOutcome)) (n : Nat)
    (msg : List Char) (h : (n, IssueOutcome.raises msg) ∈ items) :
    issueErrorEntry n msg ∈ (runIssueLoop items).2.1 := by
  induction items with
  | nil => cases h
  | cons x rest ih =>
    obtain ⟨m, o⟩ := x
    rcases List.mem_cons.mp h with he | ht
    · rw [Prod.mk.injEq] at he
      obtain ⟨h1, h2⟩ := he
      subst h1
      rw [← h2]
      exact List.mem_cons_self _ _
    · cases o with
      | raises m2 => exact List.mem_cons_of_mem _ (ih ht)
      | returns p => exact ih ht

/-- A raising PR contributes its error entry to the PR loop's error list. -/
theorem runPrLoop_err (items : List (Nat × ReviewOutcome)) (n : Nat)
    (msg : List Char) (h : (n, ReviewOutcome.raises msg) ∈ items) :
    prErrorEntry n msg ∈ (runPrLoop items).2.1 := by
  induction items with
  | nil => cases h
  | cons x rest ih =>
    obtain ⟨m, o⟩ := x
    rcases List.mem_cons.mp h with he | ht
    · rw [Prod.mk.injEq] at he
      obtain ⟨h1, h2⟩ := he
      subst h1
      rw [← h2]
      exact List.mem_cons_self _ _
    · cases o with
      | raises m2 => exact List.mem_cons_of_mem _ (ih ht)
      | ok => exact ih ht

/- ---------------------------------------------------------------------
Theorems for claims C1, C9, C3, C5, C10.
--------------------------------------------------------------------- -/

/-- C1: the next action computed by `_determine_next_action` satisfies the
spec's decision table: all three merge conditions yield `merge` (the merge
check is evaluated first), any CI failure that does not satisfy the merge
conditions yields `fix_ci`, CI success with a non-approving review yields
`request_changes`, and any remaining input yields `wait` (there are no
remaining inputs — see C9 — so the last row holds vacuously). -/
theorem claim_C1_decision_table :
    (∀ (mr : Bool) (st : String) (ci : Bool),
      mr = true → st = "approved" → ci = true →
      determineNextAction mr st ci = "merge") ∧
    (∀ (mr : Bool) (st : String) (ci : Bool),
      ci = false → ¬ (mr = true ∧ st = "approved" ∧ ci = true) →
      determineNextAction mr st ci = "fix_ci") ∧
    (∀ (mr : Bool) (st : String) (ci : Bool),
      ci = true → (mr = false ∨ st ≠ "approved") →
      determineNextAction mr st ci = "request_changes") ∧
    (∀ (mr : Bool) (st : String) (ci : Bool),
      ¬ (mr = true ∧ st = "approved" ∧ ci = true) →
      ¬ ci = false → ¬ (ci = true ∧ (mr = false ∨ st ≠ "approved")) →
      determineNextAction mr st ci = "wait") := by
  refine ⟨?_, ?_, ?_, ?_⟩
  · intro mr st ci h1 h2 h3
    simp [determineNextAction, h1, h2, h3]
  · intro mr st ci h1 _
    cases mr <;> simp [determineNextAction, h1]
  · intro mr st ci h1 h2
    rcases h2 with h2 | h2
    · simp [determineNextAction, h1, h2]
    · cases mr <;> simp [determineNextAction, h1, h2]
  · intro mr st ci h1 h2 h3
    exfalso
    cases mr with
    | true =>
      by_cases hst : st = "approved"
      · cases ci with
        | true => exact h1 ⟨rfl, hst, rfl⟩
        | false => exact h2 rfl
      · cases ci with
        | true => exact h3 ⟨rfl, Or.inr hst⟩
        | false => exact h2 rfl
    | false =>
      cases ci with
      | true => exact h3 ⟨rfl, Or.inl rfl⟩
      | false => exact h2 rfl

/-- C1 witness: the decision table applied at concrete inputs. -/
theorem claim_C1_decision_table_witness :
    determineNextAction true "approved" true = "merge" ∧
    determineNextAction true "approved" false = "fix_ci" ∧
    determineNextAction false "approved" true = "request_changes" :=
  ⟨claim_C1_decision_table.1 true "approved" true rfl rfl rfl,
   claim_C1_decision_table.2.1 true "approved" false rfl (by simp),
   claim_C1_decision_table.2.2.1 false "approved" true rfl (Or.inl rfl)⟩

/-- C9: for every combination of `meets_requirements`, review status string
and `ci_success`, `_determine_next_action` returns one of `merge`, `fix_ci`
or `request_changes`; the `wait` branch is unreachable. -/
theorem claim_C9_wait_unreachable (mr : Bool) (st : String) (ci : Bool) :
    determineNextAction mr st ci ≠ "wait" ∧
    (determineNextAction mr st ci = "merge" ∨
     determineNextAction mr st ci = "fix_ci" ∨
     determineNextAction mr st ci = "request_changes") := by
  by_cases hst : st = "approved" <;>
    cases mr <;> cases ci <;> simp [determineNextAction, hst]

/-- C3: after `update_issue_status` the WorkItem's label set contains exactly
one label of the lifecycle status group (provided the normalized status it
writes is a member of that group, as all three call sites' statuses are),
and after `_post_review_feedback` the ChangeRequest's label set contains
exactly one label of the review-outcome group; in both cases all labels
outside the group are unchanged, for any prior label set. -/
theorem claim_C3_label_group_invariant :
    (∀ (current : Finset (List Char)) (status : List Char),
      normalizeStatus status ∈ issueStatusLabels →
      updateIssueLabels current status ∩ issueStatusLabels
          = {normalizeStatus status} ∧
      updateIssueLabels current status \ issueStatusLabels
          = current \ issueStatusLabels) ∧
    (∀ (current : Finset (List Char)) (status : List Char) (meets : Bool),
      postReviewLabels current status meets ∩ reviewOutcomeLabels
          = {postReviewLabel status meets} ∧
      postReviewLabels current status meets \ reviewOutcomeLabels
          = current \ reviewOutcomeLabels) := by
  have key : ∀ (current G : Finset (List Char)) (n : List Char), n ∈ G →
      ((current \ G) ∪ {n}) ∩ G = {n} ∧
      ((current \ G) ∪ {n}) \ G = current \ G := by
    intro current G n hn
    constructor
    · ext x
      simp only [Finset.mem_inter, Finset.mem_union, Finset.mem_sdiff,
        Finset.mem_singleton]
      constructor
      · rintro ⟨hx | hx, hxG⟩
        · exact absurd hxG hx.2
        · exact hx
      · rintro rfl
        exact ⟨Or.inr rfl, hn⟩
    · ext x
      simp only [Finset.mem_sdiff, Finset.mem_union, Finset.mem_singleton]
      constructor
      · rintro ⟨hx | hx, hxG⟩
        · exact hx
        · subst hx; exact absurd hn hxG
      · rintro ⟨hx, hxG⟩
        exact ⟨Or.inl ⟨hx, hxG⟩, hxG⟩
  constructor
  · intro current status h
    exact key current issueStatusLabels (normalizeStatus status) h
  · intro current status meets
    have h : postReviewLabel status meets ∈ reviewOutcomeLabels := by
      unfold postReviewLabel reviewOutcomeLabels
      split
      · simp
      · split <;> simp
    exact key current reviewOutcomeLabels (postReviewLabel status meets) h

/-- C3 witness: a concrete status transition (status text `"In Progress"`,
prior labels containing two stale status labels plus an unrelated label). -/
theorem claim_C3_label_group_invariant_witness :
    normalizeStatus (toL "In Progress") ∈ issueStatusLabels ∧
    updateIssueLabels {toL "bug", toL "needs-review", toL "blocked"}
        (toL "In Progress") ∩ issueStatusLabels
      = {normalizeStatus (toL "In Progress")} :=
  ⟨by decide,
   (claim_C3_label_group_invariant.1
      {toL "bug", toL "needs-review", toL "blocked"}
      (toL "In Progress") (by decide)).1⟩

/-- The counter is incremented on every call, accepted or refused. -/
theorem handleReviewFeedback_fst (m c : Nat) :
    (handleReviewFeedback m c).1 = c + 1 := by
  unfold handleReviewFeedback
  split <;> rfl

/-- After `k` calls the instance counter equals `k`. -/
theorem iterAfter_eq (m k : Nat) : iterAfter m k = k := by
  induction k with
  | zero => rfl
  | succ k ih => simp [iterAfter, handleReviewFeedback_fst, ih]

/-- C5: with the iteration maximum configured to `N`, each of the first `N`
`handle_review_feedback` calls on a fresh agent instance posts the progress
comment, reaches the per-file revision loop and returns success, while the
`(N+1)`-th call posts the escalation comment, performs no revision and
returns failure (no exception: the function is total). -/
theorem claim_C5_iteration_cap (N : Nat) :
    (∀ k, 1 ≤ k → k ≤ N →
      (handleReviewFeedback N (iterAfter N (k - 1))).2
        = ⟨true, false, true, true⟩) ∧
    (handleReviewFeedback N (iterAfter N N)).2 = ⟨false, true, false, false⟩ := by
  constructor
  · intro k h1 h2
    rw [iterAfter_eq]
    unfold handleReviewFeedback
    have : ¬ (k - 1 + 1 > N) := by omega
    simp [this]
  · rw [iterAfter_eq]
    unfold handleReviewFeedback
    simp

/-- C5 witness: with the maximum set to 3, the first call proceeds and the
fourth call is refused. -/
theorem claim_C5_iteration_cap_witness :
    (1 : Nat) ≤ 1 ∧ (1 : Nat) ≤ 3 ∧
    (handleReviewFeedback 3 (iterAfter 3 0)).2 = ⟨true, false, true, true⟩ ∧
    (handleReviewFeedback 3 (iterAfter 3 3)).2 = ⟨false, true, false, false⟩ :=
  ⟨by decide, by decide,
   (claim_C5_iteration_cap 3).1 1 (by decide) (by decide),
   (claim_C5_iteration_cap 3).2⟩

/-- Folding `ciStep` over a status-entry list conjoins the initial success
flag with "every entry's state is `success`". -/
theorem ciFold_success (sts : List StatusEntry) (acc : CiStatus) :
    (sts.foldl ciStep acc).success
      = (acc.success && sts.all (fun s => s.state == toL "success")) := by
  induction sts generalizing acc with
  | nil => simp
  | cons s rest ih =>
    simp only [List.foldl_cons, List.all_cons, ih, ciStep, Bool.and_assoc]

/-- C10: `get_ci_status` reports `success = false` when the ChangeRequest
has no commits; when it has commits, `success = true` exactly when every
status entry on the latest commit has state `"success"` — in particular a
latest commit with zero status entries yields `success = true`, and that
vacuous success feeds a favorable review straight into the `merge`
decision. -/
theorem claim_C10_ci_aggregation :
    (getCiStatus []).success = false ∧
    (∀ (commits : List (List StatusEntry)) (sts : List StatusEntry),
      commits.getLast? = some sts →
      ((getCiStatus commits).success = true ↔
        ∀ s ∈ sts, s.state = toL "success")) ∧
    (∀ commits : List (List StatusEntry),
      commits.getLast? = some [] → (getCiStatus commits).success = true) ∧
    determineNextAction true "approved" (getCiStatus [[]]).success = "merge" := by
  refine ⟨rfl, ?_, ?_, ?_⟩
  · intro commits sts h
    unfold getCiStatus
    rw [h]
    simp only [ciFold_success, Bool.true_and, List.all_eq_true, beq_iff_eq]
  · intro commits h
    unfold getCiStatus
    rw [h]
    rfl
  · rfl

/-- C10 witness: a single commit carrying zero status entries aggregates to
success, and a single failing entry to failure. -/
theorem claim_C10_ci_aggregation_witness :
    ([[]] : List (List StatusEntry)).getLast? = some [] ∧
    (getCiStatus [[]]).success = true :=
  ⟨rfl, claim_C10_ci_aggregation.2.2.1 [[]] rfl⟩

/-- C4 counterexample: on the title `"fix--bug"` (which already contains a
hyphen run) the code collapses the two hyphens into one, while the spec's
stated steps — which collapse only non-alphanumeric/non-hyphen runs — keep
both, so the derivation does not follow the stated steps. -/
theorem claim_C4_counterexample :
    branchName (toL "agent/") 1 (toL "fix--bug")
      ≠ branchNameSpecSteps (toL "agent/") 1 (toL "fix--bug") := by
  decide

/-- C4 (amended): branch-name derivation is a pure function of title and
item id — deriving twice yields identical strings — it follows the stated
steps with the collapse step amended to "collapse every maximal run of
non-alphanumeric characters, hyphens included, to a single hyphen", and the
result never exceeds the 100-character ceiling. -/
theorem claim_C4_branch_derivation (ns : List Char) (issueNumber : Nat)
    (title : List Char) :
    branchName ns issueNumber title = branchName ns issueNumber title ∧
    branchName ns issueNumber title = branchNameAmended ns issueNumber title ∧
    (branchName ns issueNumber title).length ≤ 100 := by
  refine ⟨rfl, ?_, ?_⟩
  · unfold branchName branchNameAmended cleanTitle cleanTitleAmended
    rw [collapseHyphenRuns_subBadChars]
  · unfold branchName
    simp [List.length_take]

/-- C6: for the requirement "add a configuration loader in yaml" and every
repository tree, the resolver returns only tree entries (in tree order, as a
sublist of the tree), capped at 50, each matching one of the
`*.json`/`*.yaml`/`*.yml` patterns by suffix and containing neither
`node_modules/` nor `.git` as a substring. -/
theorem claim_C6_config_resolution (tree : List (List Char)) :
    (discoverRelevantFiles reqC6 tree).Sublist tree ∧
    (discoverRelevantFiles reqC6 tree).length ≤ 50 ∧
    ∀ p ∈ discoverRelevantFiles reqC6 tree,
      ((toL ".json").isSuffixOf p = true ∨ (toL ".yaml").isSuffixOf p = true ∨
        (toL ".yml").isSuffixOf p = true) ∧
      isInfixL (toL "node_modules/") p = false ∧
      isInfixL (toL ".git") p = false := by
  have hpats : determineFilePatterns reqC6
      = [toL "*.json", toL "*.yaml", toL "*.yml"] := by decide
  refine ⟨?_, ?_, ?_⟩
  · exact (List.take_sublist _ _).trans (List.filter_sublist _)
  · simp [discoverRelevantFiles, List.length_take]
  · intro p hp
    have hp2 := List.mem_of_mem_take hp
    have hp3 := (List.mem_filter.mp hp2).2
    rw [Bool.and_eq_true] at hp3
    obtain ⟨hmatch, hexc⟩ := hp3
    constructor
    · rw [hpats] at hmatch
      simp only [List.any_cons, List.any_nil, Bool.or_eq_true,
        Bool.or_eq_false_iff] at hmatch
      have e1 : toL "*.json" = '*' :: toL ".json" := rfl
      have e2 : toL "*.yaml" = '*' :: toL ".yaml" := rfl
      have e3 : toL "*.yml" = '*' :: toL ".yml" := rfl
      rw [e1, e2, e3, patternMatches_star_noMid _ _ (by decide),
        patternMatches_star_noMid _ _ (by decide),
        patternMatches_star_noMid _ _ (by decide)] at hmatch
      rcases hmatch with h | h | h
      · exact Or.inl h
      · exact Or.inr (Or.inl h)
      · exact Or.inr (Or.inr (by simpa using h))
    · rw [Bool.not_eq_eq_eq_not, Bool.not_true] at hexc
      unfold isExcluded excludeDirs at hexc
      simp only [List.any_cons, List.any_nil, Bool.or_eq_false_iff] at hexc
      exact ⟨hexc.2.1, hexc.2.2.2.2.2.2.2.1⟩

/-- C6 witness: a one-entry tree holding a YAML file. -/
theorem claim_C6_config_resolution_witness :
    (toL "config/app.yaml") ∈ discoverRelevantFiles reqC6 [toL "config/app.yaml"] ∧
    (((toL ".json").isSuffixOf (toL "config/app.yaml") = true ∨
      (toL ".yaml").isSuffixOf (toL "config/app.yaml") = true ∨
      (toL ".yml").isSuffixOf (toL "config/app.yaml") = true) ∧
     isInfixL (toL "node_modules/") (toL "config/app.yaml") = false ∧
     isInfixL (toL ".git") (toL "config/app.yaml") = false) :=
  ⟨by decide,
   (claim_C6_config_resolution [toL "config/app.yaml"]).2.2
     (toL "config/app.yaml") (by decide)⟩

/-- C7 (code evaluated at the failing input): a requirement mentioning
"test" does derive the `*test*.py` pattern, but under `_pattern_matches` the
ordinary test file `tests/test_app.py` does NOT match it — the code checks
for the literal substring `test*.p` — so the resolver returns the empty
candidate set instead of including the test file as the spec intends. -/
theorem claim_C7_test_pattern_never_matches :
    determineFilePatterns (toL "add tests for the loader") = [toL "*test*.py"] ∧
    patternMatches (toL "*test*.py") (toL "tests/test_app.py") = false ∧
    discoverRelevantFiles (toL "add tests for the loader")
        [toL "tests/test_app.py"] = [] := by
  refine ⟨by decide, by decide, by decide⟩

/-- C2: the Response Interpreter (first-brace-to-last-brace span extraction
followed by JSON decoding) satisfies the round-trip and fallback contract.
When the model text is a prefix with no opening brace, a well-formed JSON
object (brace-delimited, decoding to `v`) and a suffix with no closing
brace, both components' interpretations yield exactly `v` — the result of
decoding the object directly.  When extraction finds no span or decoding
the extracted span fails, each component returns its explicitly-shaped
fallback record.  Both interpretations are total Lean functions, so no
exception is possible. -/
theorem claim_C2_response_interpreter :
    (∀ (p o s o' : List Char) (v : Json),
      o = '\x7b' :: o' → o.getLast? = some '\x7d' →
      (∀ c ∈ p, c ≠ '\x7b') → (∀ c ∈ s, c ≠ '\x7d') →
      parseJson o = some v →
      performLLMReview (p ++ o ++ s) = v ∧
      ∀ title body : List Char,
        analyzeIssueInterpret title body (p ++ o ++ s) = v) ∧
    (∀ text : List Char, interpretModelResponse text = none →
      performLLMReview text = createFallbackReview text ∧
      ∀ title body : List Char,
        analyzeIssueInterpret title body text = analyzeIssueFallback title body) := by
  constructor
  · intro p o s o' v ho hlast hp hs hparse
    have hex := extractJsonSpan_concat p o s o' ho hlast hp hs
    have hint : interpretModelResponse (p ++ o ++ s) = some v := by
      unfold interpretModelResponse
      rw [hex]
      exact hparse
    constructor
    · unfold performLLMReview
      rw [hint]
    · intro title body
      unfold analyzeIssueInterpret
      rw [hint]
  · intro text h
    constructor
    · unfold performLLMReview
      rw [h]
    · intro title body
      unfold analyzeIssueInterpret
      rw [h]

/-- C2 witness: a concrete response with surrounding noise round-trips to
the decoded object, and a brace-free response falls back. -/
theorem claim_C2_response_interpreter_witness :
    parseJson (toL "\x7b\"ok\": true\x7d")
        = some (Json.obj [(toL "ok", Json.bool true)]) ∧
    performLLMReview (toL "noise " ++ toL "\x7b\"ok\": true\x7d" ++ toL " end.")
        = Json.obj [(toL "ok", Json.bool true)] ∧
    interpretModelResponse (toL "no json here") = none ∧
    performLLMReview (toL "no json here")
        = createFallbackReview (toL "no json here") :=
  ⟨rfl,
   (claim_C2_response_interpreter.1 (toL "noise ") (toL "\x7b\"ok\": true\x7d")
      (toL " end.") (toL "\"ok\": true\x7d")
      (Json.obj [(toL "ok", Json.bool true)]) rfl rfl
      (by decide) (by decide) rfl).1,
   rfl,
   (claim_C2_response_interpreter.2 (toL "no json here") rfl).1⟩

/-- C8: within one poll cycle, a raising item never aborts the cycle (the
embedding of the cycle is a total function): its error entry appears in the
cycle's recorded errors, and both loops still reach every listed item — in
particular every item after the raising one. -/
theorem claim_C8_cycle_isolation (issues : List (Nat × IssueOutcome))
    (prs : List (Nat × ReviewOutcome)) (n : Nat) (msg : List Char) :
    ((n, IssueOutcome.raises msg) ∈ issues →
      issueErrorEntry n msg ∈ (processPendingIssues issues prs).errors) ∧
    ((n, ReviewOutcome.raises msg) ∈ prs →
      prErrorEntry n msg ∈ (processPendingIssues issues prs).errors) ∧
    (processPendingIssues issues prs).attemptedIssues = issues.map Prod.fst ∧
    (processPendingIssues issues prs).attemptedPrs = prs.map Prod.fst := by
  refine ⟨?_, ?_, ?_, ?_⟩
  · intro h
    exact List.mem_append_left _ (runIssueLoop_err issues n msg h)
  · intro h
    exact List.mem_append_right _ (runPrLoop_err prs n msg h)
  · exact runIssueLoop_attempted issues
  · exact runPrLoop_attempted prs

/-- C8 witness: issue #1 raises, issue #2 (listed after it) is still
processed and the error entry for #1 is recorded. -/
theorem claim_C8_cycle_isolation_witness :
    ((1, IssueOutcome.raises (toL "boom"))
        ∈ [(1, IssueOutcome.raises (toL "boom")),
           (2, IssueOutcome.returns (some 5))]) ∧
    issueErrorEntry 1 (toL "boom")
      ∈ (processPendingIssues
          [(1, IssueOutcome.raises (toL "boom")),
           (2, IssueOutcome.returns (some 5))] []).errors ∧
    (processPendingIssues
        [(1, IssueOutcome.raises (toL "boom")),
         (2, IssueOutcome.returns (some 5))] []).attemptedIssues = [1, 2] :=
  ⟨by decide,
   (claim_C8_cycle_isolation
      [(1, IssueOutcome.raises (toL "boom")),
       (2, IssueOutcome.returns (some 5))] [] 1 (toL "boom")).1 (by decide),
   (claim_C8_cycle_isolation
      [(1, IssueOutcome.raises (toL "boom")),
       (2, IssueOutcome.returns (some 5))] [] 1 (toL "boom")).2.2.1⟩

end CLIAgent
